import Mathlib

/-!
Shallow embedding of the list/membership router of `packages/trpc/routers/lists.ts`
(ownership guard, list CRUD, membership add/remove, bookmark-to-lists query),
with the database modelled as explicit state and each TRPC mutation as a
state-passing function.  Thrown errors are modelled by an explicit `Failure`
type; a mutation that throws returns the database state current at the throw
site (no write precedes any throw in the source, except where modelled).
-/

/-- The `type` column of a bookmark list: `"manual"` or `"smart"`. -/
inductive ListType where
  | manual
  | smart
deriving DecidableEq, Repr

/-- A row of the `bookmarkLists` table (the columns the router touches). -/
structure BookmarkList where
  id : String
  name : String
  icon : String
  parentId : Option String
  type : ListType
  query : Option String
  userId : String
deriving DecidableEq, Repr

/-- A row of the `bookmarksInLists` join table; the pair `(listId, bookmarkId)`
is its composite primary key. -/
structure BookmarkInList where
  listId : String
  bookmarkId : String
deriving DecidableEq, Repr

/-- A bookmark row, as far as `ensureBookmarkOwnership` needs it
(id and owning user). -/
structure Bookmark where
  id : String
  userId : String
deriving DecidableEq, Repr

/-- The database state visible to this router. -/
structure Db where
  bookmarkLists : List BookmarkList
  bookmarksInLists : List BookmarkInList
  bookmarks : List Bookmark
deriving DecidableEq, Repr

/-- TRPC error codes used by this router. -/
inductive TrpcCode where
  | UNAUTHORIZED
  | NOT_FOUND
  | FORBIDDEN
  | BAD_REQUEST
  | INTERNAL_SERVER_ERROR
deriving DecidableEq, Repr

/-- An error thrown by a procedure: a `TRPCError` (code plus optional message),
a `tiny-invariant` violation, or a `node:assert` assertion failure. -/
inductive Failure where
  | trpc : TrpcCode → Option String → Failure
  | invariantViolation : Failure
  | assertionFailure : Failure
deriving DecidableEq, Repr

/-- A failure surfaced by the store layer during an insert: a `SqliteError`
carrying its `code` string, or any other thrown error. -/
inductive StoreError where
  | sqlite : String → StoreError
  | other : StoreError
deriving DecidableEq, Repr

/-- Equality of `Except` results is decidable when both components are. -/
instance {ε α : Type} [DecidableEq ε] [DecidableEq α] : DecidableEq (Except ε α) :=
  fun x y =>
    match x, y with
    | .ok a, .ok b =>
      if h : a = b then isTrue (by rw [h])
      else isFalse (by intro hc; injection hc; contradiction)
    | .error a, .error b =>
      if h : a = b then isTrue (by rw [h])
      else isFalse (by intro hc; injection hc; contradiction)
    | .ok _, .error _ => isFalse (fun hc => Except.noConfusion hc)
    | .error _, .ok _ => isFalse (fun hc => Except.noConfusion hc)

/-- Drizzle `db.query.bookmarkLists.findFirst` with `where: eq(bookmarkLists.id, listId)`:
first list row whose id matches. -/
def findFirstList (db : Db) (listId : String) : Option BookmarkList :=
  db.bookmarkLists.find? (fun l => l.id = listId)

/-- A `findFirst` on `bookmarkLists` filtered by
`and(eq(id, listId), eq(userId, uid))`. -/
def findFirstListOfUser (db : Db) (listId uid : String) : Option BookmarkList :=
  db.bookmarkLists.find? (fun l => l.id = listId ∧ l.userId = uid)

/-- First bookmark row whose id matches. -/
def findFirstBookmark (db : Db) (bookmarkId : String) : Option Bookmark :=
  db.bookmarks.find? (fun b => b.id = bookmarkId)

/-- The `ensureListOwnership` middleware: look the list up by id, then fail
`UNAUTHORIZED` if there is no caller identity, `NOT_FOUND` if the list does
not exist, `FORBIDDEN` if the caller does not own it; otherwise continue. -/
def ensureListOwnership (db : Db) (user : Option String) (listId : String) :
    Except Failure Unit :=
  let list := findFirstList db listId
  match user with
  | none => .error (.trpc .UNAUTHORIZED (some "User is not authorized"))
  | some uid =>
    match list with
    | none => .error (.trpc .NOT_FOUND (some "List not found"))
    | some l =>
      if l.userId ≠ uid then
        .error (.trpc .FORBIDDEN (some "User is not allowed to access resource"))
      else
        .ok ()

/-- Modelled from the spec: `ensureBookmarkOwnership` lives in the bookmarks
router (imported, not part of this source file); the spec gives it the same
contract shape as the list ownership guard, over the bookmark relation. -/
def ensureBookmarkOwnership (db : Db) (user : Option String) (bookmarkId : String) :
    Except Failure Unit :=
  let bookmark := findFirstBookmark db bookmarkId
  match user with
  | none => .error (.trpc .UNAUTHORIZED (some "User is not authorized"))
  | some uid =>
    match bookmark with
    | none => .error (.trpc .NOT_FOUND (some "Bookmark not found"))
    | some b =>
      if b.userId ≠ uid then
        .error (.trpc .FORBIDDEN (some "User is not allowed to access resource"))
      else
        .ok ()

/-- Input of `create` (`zNewBookmarkListSchema`): name, icon, optional parent,
list type and optional query. -/
structure NewListInput where
  name : String
  icon : String
  parentId : Option String
  type : ListType
  query : Option String
deriving DecidableEq, Repr

/-- Input of `edit` (`zEditBookmarkListSchemaWithValidation`): the target list
id plus optional new field values; `none` means the field was not provided
(JS `undefined`, skipped by the update).  `parentId` can also be explicitly
set to null, hence the nested option. -/
structure EditListInput where
  listId : String
  name : Option String
  icon : Option String
  parentId : Option (Option String)
  query : Option String
deriving DecidableEq, Repr

/-- JS truthiness of an optional string (`if (input.query)`): absent and the
empty string are falsy. -/
def strTruthy : Option String → Bool
  | none => false
  | some s => s ≠ ""

/-- The drizzle `.set({name, icon, parentId, query})` clause applied to one
row: fields whose input value is `undefined` are skipped, provided fields
overwrite the column. -/
def applySet (input : EditListInput) (l : BookmarkList) : BookmarkList :=
  { l with
    name := input.name.getD l.name
    icon := input.icon.getD l.icon
    parentId := input.parentId.getD l.parentId
    query := match input.query with
      | some q => some q
      | none => l.query }

/-- Modelled from the spec: the membership store enforces a uniqueness
constraint on the `(listId, bookmarkId)` composite key (the db schema is
outside this source file); inserting an existing pair surfaces a
`SqliteError` with code `SQLITE_CONSTRAINT_PRIMARYKEY`, otherwise the row is
appended. -/
def insertMembership (db : Db) (listId bookmarkId : String) : Except StoreError Db :=
  if db.bookmarksInLists.any (fun m => m.listId = listId ∧ m.bookmarkId = bookmarkId) then
    .error (.sqlite "SQLITE_CONSTRAINT_PRIMARYKEY")
  else
    .ok { db with bookmarksInLists := db.bookmarksInLists ++ [⟨listId, bookmarkId⟩] }

/-- The `catch` block of `addToList`: a `SqliteError` with code
`SQLITE_CONSTRAINT_PRIMARYKEY` becomes `BAD_REQUEST` ("already in the list");
every other store error becomes `INTERNAL_SERVER_ERROR`. -/
def catchAddToListError (listId bookmarkId : String) : StoreError → Failure
  | .sqlite code =>
    if code = "SQLITE_CONSTRAINT_PRIMARYKEY" then
      .trpc .BAD_REQUEST (some s!"Bookmark {bookmarkId} is already in the list {listId}")
    else
      .trpc .INTERNAL_SERVER_ERROR (some "Something went wrong")
  | .other => .trpc .INTERNAL_SERVER_ERROR (some "Something went wrong")

/-- Number of membership rows for a `(listId, bookmarkId)` pair. -/
def pairCount (db : Db) (listId bookmarkId : String) : Nat :=
  (db.bookmarksInLists.filter (fun m => m.listId = listId ∧ m.bookmarkId = bookmarkId)).length

namespace listsAppRouter

/-- The `create` mutation: insert a row with the caller as `userId`, the
fields of the input as given and a store-generated id, returning the stored row.
(`authedProcedure` rejects anonymous callers with `UNAUTHORIZED`.) -/
def create (db : Db) (user : Option String) (input : NewListInput) (newId : String) :
    Except Failure BookmarkList × Db :=
  match user with
  | none => (.error (.trpc .UNAUTHORIZED (some "User is not authorized")), db)
  | some uid =>
    let row : BookmarkList :=
      { id := newId, name := input.name, icon := input.icon,
        parentId := input.parentId, type := input.type, query := input.query,
        userId := uid }
    (.ok row, { db with bookmarkLists := db.bookmarkLists ++ [row] })

/-- The update statement of `edit`: update rows matching
`and(eq(id, listId), eq(userId, uid))` with the `.set` clause and return them
(`.returning()`); zero updated rows throws `NOT_FOUND`, otherwise the first
returned row is the result. -/
def editUpdate (db : Db) (uid : String) (input : EditListInput) :
    Except Failure BookmarkList × Db :=
  let result :=
    (db.bookmarkLists.filter (fun l => l.id = input.listId ∧ l.userId = uid)).map
      (applySet input)
  let updated :=
    db.bookmarkLists.map
      (fun l => if l.id = input.listId ∧ l.userId = uid then applySet input l else l)
  match result with
  | [] => (.error (.trpc .NOT_FOUND none), db)
  | r :: _ => (.ok r, { db with bookmarkLists := updated })

/-- The body of the `edit` mutation (after the ownership middleware): if the
query of the input is truthy, re-read the list by id+owner (`invariant` failure
if it vanished) and reject non-smart lists with `BAD_REQUEST`; then run the
update. -/
def editHandler (db : Db) (uid : String) (input : EditListInput) :
    Except Failure BookmarkList × Db :=
  if strTruthy input.query then
    match findFirstListOfUser db input.listId uid with
    | none => (.error .invariantViolation, db)
    | some l =>
      if l.type ≠ .smart then
        (.error (.trpc .BAD_REQUEST (some "Manual lists cannot have a query")), db)
      else
        editUpdate db uid input
  else
    editUpdate db uid input

/-- The `edit` procedure: ownership middleware, then the handler. -/
def edit (db : Db) (user : Option String) (input : EditListInput) :
    Except Failure BookmarkList × Db :=
  match ensureListOwnership db user input.listId with
  | .error e => (.error e, db)
  | .ok () =>
    match user with
    | none => (.error (.trpc .UNAUTHORIZED (some "User is not authorized")), db)
    | some uid => editHandler db uid input

/-- The body of the `delete` mutation: delete rows matching id+owner, failing
`NOT_FOUND` when zero rows were affected.  The removal of membership rows of
the deleted lists is modelled from the spec: deletion cascade-removes all
Membership rows referencing the deleted list (the `ON DELETE` behaviour lives
in the db schema, outside this source file). -/
def deleteHandler (db : Db) (uid : String) (listId : String) :
    Except Failure Unit × Db :=
  let deleted := db.bookmarkLists.filter (fun l => l.id = listId ∧ l.userId = uid)
  let remaining := db.bookmarkLists.filter (fun l => ¬(l.id = listId ∧ l.userId = uid))
  if deleted.length = 0 then
    (.error (.trpc .NOT_FOUND none), db)
  else
    (.ok (), { db with
      bookmarkLists := remaining,
      bookmarksInLists := db.bookmarksInLists.filter
        (fun m => ¬ deleted.any (fun l => l.id = m.listId)) })

/-- The `delete` procedure: ownership middleware, then the handler. -/
def delete (db : Db) (user : Option String) (listId : String) :
    Except Failure Unit × Db :=
  match ensureListOwnership db user listId with
  | .error e => (.error e, db)
  | .ok () =>
    match user with
    | none => (.error (.trpc .UNAUTHORIZED (some "User is not authorized")), db)
    | some uid => deleteHandler db uid listId

/-- The body of the `addToList` mutation (after both ownership middlewares):
re-read the list by id+owner (`invariant` failure if it vanished), reject
smart lists with `BAD_REQUEST`, then insert the membership pair, translating
store errors through the `catch` block. -/
def addToListHandler (db : Db) (uid listId bookmarkId : String) :
    Except Failure Unit × Db :=
  match findFirstListOfUser db listId uid with
  | none => (.error .invariantViolation, db)
  | some l =>
    if l.type = .smart then
      (.error (.trpc .BAD_REQUEST (some "Smart lists cannot be added to")), db)
    else
      match insertMembership db listId bookmarkId with
      | .error e => (.error (catchAddToListError listId bookmarkId e), db)
      | .ok db' => (.ok (), db')

/-- The `addToList` procedure: list ownership middleware, then bookmark
ownership middleware, then the handler. -/
def addToList (db : Db) (user : Option String) (listId bookmarkId : String) :
    Except Failure Unit × Db :=
  match ensureListOwnership db user listId with
  | .error e => (.error e, db)
  | .ok () =>
    match ensureBookmarkOwnership db user bookmarkId with
    | .error e => (.error e, db)
    | .ok () =>
      match user with
      | none => (.error (.trpc .UNAUTHORIZED (some "User is not authorized")), db)
      | some uid => addToListHandler db uid listId bookmarkId

/-- The body of the `removeFromList` mutation (after both ownership
middlewares): delete the membership pair; zero affected rows throws
`BAD_REQUEST` ("already not in list"). -/
def removeFromListHandler (db : Db) (listId bookmarkId : String) :
    Except Failure Unit × Db :=
  let deleted :=
    db.bookmarksInLists.filter (fun m => m.listId = listId ∧ m.bookmarkId = bookmarkId)
  let remaining :=
    db.bookmarksInLists.filter (fun m => ¬(m.listId = listId ∧ m.bookmarkId = bookmarkId))
  if deleted.length = 0 then
    (.error (.trpc .BAD_REQUEST
      (some s!"Bookmark {bookmarkId} is already not in list {listId}")), db)
  else
    (.ok (), { db with bookmarksInLists := remaining })

/-- The `removeFromList` procedure: list ownership middleware, then bookmark
ownership middleware, then the handler. -/
def removeFromList (db : Db) (user : Option String) (listId bookmarkId : String) :
    Except Failure Unit × Db :=
  match ensureListOwnership db user listId with
  | .error e => (.error e, db)
  | .ok () =>
    match ensureBookmarkOwnership db user bookmarkId with
    | .error e => (.error e, db)
    | .ok () =>
      match user with
      | none => (.error (.trpc .UNAUTHORIZED (some "User is not authorized")), db)
      | some _ => removeFromListHandler db listId bookmarkId

/-- The join performed by `getListsOfBookmark`: membership rows of the
bookmark, each joined (`with: { list: true }`) to its list row. -/
def joinedListsOfBookmark (db : Db) (bookmarkId : String) : List BookmarkList :=
  (db.bookmarksInLists.filter (fun m => m.bookmarkId = bookmarkId)).filterMap
    (fun m => findFirstList db m.listId)

/-- The body of the `getListsOfBookmark` query (after the bookmark ownership
middleware): fetch the joined lists and `assert` that every one belongs to
the caller; a violation aborts the request. -/
def getListsOfBookmarkHandler (db : Db) (uid bookmarkId : String) :
    Except Failure (List BookmarkList) :=
  let lists := joinedListsOfBookmark db bookmarkId
  if lists.all (fun l => l.userId = uid) then .ok lists
  else .error .assertionFailure

/-- The `getListsOfBookmark` procedure: bookmark ownership middleware, then
the handler (a query, so the database is unchanged). -/
def getListsOfBookmark (db : Db) (user : Option String) (bookmarkId : String) :
    Except Failure (List BookmarkList) :=
  match ensureBookmarkOwnership db user bookmarkId with
  | .error e => .error e
  | .ok () =>
    match user with
    | none => .error (.trpc .UNAUTHORIZED (some "User is not authorized"))
    | some uid => getListsOfBookmarkHandler db uid bookmarkId

end listsAppRouter

/-- A concrete manual list owned by `u1`, used by witnesses. -/
def listW : BookmarkList :=
  { id := "l1", name := "Reading", icon := "star", parentId := none,
    type := .manual, query := none, userId := "u1" }

/-- A concrete smart list owned by `u1`, used by witnesses. -/
def listSmart : BookmarkList :=
  { id := "s1", name := "Archived", icon := "box", parentId := none,
    type := .smart, query := some "is:archived", userId := "u1" }

/-- A concrete bookmark owned by `u1`, used by witnesses. -/
def bmW : Bookmark := { id := "b1", userId := "u1" }

/-- A concrete one-list database (list `l1` of `u1`, bookmark `b1` of `u1`,
no memberships), used by witnesses. -/
def dbW : Db :=
  { bookmarkLists := [listW],
    bookmarksInLists := [],
    bookmarks := [bmW] }

/-- The database `dbW` with the membership pair `(l1, b1)` present. -/
def dbPair : Db :=
  { bookmarkLists := [listW],
    bookmarksInLists := [{ listId := "l1", bookmarkId := "b1" }],
    bookmarks := [bmW] }

/-- A database holding the smart list `s1` of `u1` and bookmark `b1` of `u1`. -/
def dbSmart : Db :=
  { bookmarkLists := [listSmart],
    bookmarksInLists := [],
    bookmarks := [bmW] }

/-- A concrete manual list of `u1` that (violating I1) carries a stored
query, for exercising `edit`. -/
def listC2 : BookmarkList :=
  { id := "l1", name := "Reading", icon := "star", parentId := none,
    type := .manual, query := some "old", userId := "u1" }

/-- Database holding `listC2`. -/
def dbC2 : Db :=
  { bookmarkLists := [listC2], bookmarksInLists := [], bookmarks := [] }

/-- An `edit` input carrying the empty string as query (non-null, but falsy
in JS). -/
def inpC2 : EditListInput :=
  { listId := "l1", name := none, icon := none, parentId := none, query := some "" }

/-- An `edit` input renaming `l1` and providing nothing else. -/
def inpRename : EditListInput :=
  { listId := "l1", name := some "Books", icon := none, parentId := none, query := none }

/-- An `edit` input providing a non-empty query for `l1`. -/
def inpQuery : EditListInput :=
  { listId := "l1", name := none, icon := none, parentId := none,
    query := some "is:starred" }

/-- A database where bookmark `b1` of `u1` is a member of a list owned by a
different user `u2` (a cross-ownership data-integrity violation). -/
def dbCross : Db :=
  { bookmarkLists :=
      [{ id := "l9", name := "Stolen", icon := "x", parentId := none,
         type := .manual, query := none, userId := "u2" }],
    bookmarksInLists := [{ listId := "l9", bookmarkId := "b1" }],
    bookmarks := [bmW] }

/-- An empty database. -/
def dbEmpty : Db :=
  { bookmarkLists := [], bookmarksInLists := [], bookmarks := [] }

/-- If the first row of `ls` with a given id is owned by `uid`, then the
id+owner search finds that same row. -/
theorem find?_id_user_of_find?_id (ls : List BookmarkList) (listId uid : String)
    (L : BookmarkList) (hfind : ls.find? (fun l => l.id = listId) = some L)
    (hown : L.userId = uid) :
    ls.find? (fun l => l.id = listId ∧ l.userId = uid) = some L := by
  induction ls with
  | nil => simp at hfind
  | cons a t ih =>
    by_cases ha : a.id = listId
    · rw [List.find?_cons_of_pos _ (by simp [ha])] at hfind
      have haL : a = L := by simpa using hfind
      subst haL
      rw [List.find?_cons_of_pos _ (by simp [ha, hown])]
    · rw [List.find?_cons_of_neg _ (by simp [ha])] at hfind
      rw [List.find?_cons_of_neg _ (by simp [ha])]
      exact ih hfind

/-- If the first list with a given id is owned by `uid`, then the id+owner
lookup finds that same row. -/
theorem findFirstListOfUser_of_findFirstList (db : Db) (listId uid : String)
    (L : BookmarkList) (hfind : findFirstList db listId = some L)
    (hown : L.userId = uid) :
    findFirstListOfUser db listId uid = some L :=
  find?_id_user_of_find?_id db.bookmarkLists listId uid L hfind hown

/-- C1: the list ownership guard checks identity first, existence second and
ownership third: absent caller fails `UNAUTHORIZED` regardless of the list,
a missing list fails `NOT_FOUND`, an owner mismatch fails `FORBIDDEN`, and
otherwise the guard succeeds. -/
theorem ensureListOwnership_precedence (db : Db) (user : Option String) (listId : String) :
    (user = none →
      ensureListOwnership db user listId =
        .error (.trpc .UNAUTHORIZED (some "User is not authorized"))) ∧
    (∀ uid, user = some uid → findFirstList db listId = none →
      ensureListOwnership db user listId =
        .error (.trpc .NOT_FOUND (some "List not found"))) ∧
    (∀ uid l, user = some uid → findFirstList db listId = some l → l.userId ≠ uid →
      ensureListOwnership db user listId =
        .error (.trpc .FORBIDDEN (some "User is not allowed to access resource"))) ∧
    (∀ uid l, user = some uid → findFirstList db listId = some l → l.userId = uid →
      ensureListOwnership db user listId = .ok ()) := by
  refine ⟨?_, ?_, ?_, ?_⟩
  · rintro rfl
    rfl
  · rintro uid rfl hfind
    simp [ensureListOwnership, hfind]
  · rintro uid l rfl hfind hne
    simp [ensureListOwnership, hfind, hne]
  · rintro uid l rfl hfind heq
    simp [ensureListOwnership, hfind, heq]

/-- Witness for C1: on a concrete database, an anonymous caller is refused
`UNAUTHORIZED`, a missing list gives `NOT_FOUND`, a non-owner gets `FORBIDDEN`
and the owner passes. -/
theorem ensureListOwnership_precedence_witness :
    ensureListOwnership dbW none "l1" =
      .error (.trpc .UNAUTHORIZED (some "User is not authorized")) ∧
    ensureListOwnership dbW (some "u1") "nope" =
      .error (.trpc .NOT_FOUND (some "List not found")) ∧
    ensureListOwnership dbW (some "u2") "l1" =
      .error (.trpc .FORBIDDEN (some "User is not allowed to access resource")) ∧
    ensureListOwnership dbW (some "u1") "l1" = .ok () := by
  refine ⟨?_, ?_, ?_, ?_⟩
  · exact (ensureListOwnership_precedence dbW none "l1").1 rfl
  · exact (ensureListOwnership_precedence dbW (some "u1") "nope").2.1 "u1" rfl (by decide)
  · exact (ensureListOwnership_precedence dbW (some "u2") "l1").2.2.1 "u2" listW rfl
      (by decide) (by decide)
  · exact (ensureListOwnership_precedence dbW (some "u1") "l1").2.2.2 "u1" listW rfl
      (by decide) rfl

/-- C8: `create` by an authenticated caller persists `userId` equal to the
caller and the given name, icon, parentId, type and query exactly as provided
— in particular a manual type with a non-null query is stored as-is, with no
`BAD_REQUEST` — and returns the stored row including the generated id. -/
theorem create_persists_input_as_given (db : Db) (uid : String) (input : NewListInput)
    (newId : String) :
    listsAppRouter.create db (some uid) input newId =
      (.ok { id := newId, name := input.name, icon := input.icon,
             parentId := input.parentId, type := input.type, query := input.query,
             userId := uid },
       { db with bookmarkLists :=
          db.bookmarkLists ++
            [{ id := newId, name := input.name, icon := input.icon,
               parentId := input.parentId, type := input.type, query := input.query,
               userId := uid }] }) := rfl

/-- Counterexample to C2 as stated: on the manual list `listC2`, with the
ownership guard passing, `edit` with the non-null query `some ""` (falsy in
JS, so the type check is skipped) does not fail `BAD_REQUEST`: it succeeds
and overwrites the stored query `some "old"` with `some ""`. -/
theorem edit_manual_empty_query_counterexample :
    listC2.type = .manual ∧
    ensureListOwnership dbC2 (some "u1") "l1" = .ok () ∧
    inpC2.listId = "l1" ∧
    inpC2.query = some "" ∧
    (listsAppRouter.edit dbC2 (some "u1") inpC2).1 =
      .ok { listC2 with query := some "" } ∧
    (listsAppRouter.edit dbC2 (some "u1") inpC2).2.bookmarkLists =
      [{ listC2 with query := some "" }] := by
  decide

/-- C2 (amended): for a list whose stored type is `manual`, with the caller
passing the ownership guard, `edit` with a non-null, non-empty query fails
`BAD_REQUEST` ("Manual lists cannot have a query") and returns the database
unchanged, so every stored field of the list keeps its prior value. -/
theorem edit_manual_nonempty_query_rejected (db : Db) (uid : String)
    (input : EditListInput) (L : BookmarkList) (q : String)
    (hfind : findFirstList db input.listId = some L) (hown : L.userId = uid)
    (htype : L.type = .manual) (hq : input.query = some q) (hne : q ≠ "") :
    listsAppRouter.edit db (some uid) input =
      (.error (.trpc .BAD_REQUEST (some "Manual lists cannot have a query")), db) := by
  have hguard : ensureListOwnership db (some uid) input.listId = .ok () := by
    simp [ensureListOwnership, hfind, hown]
  have huser := findFirstListOfUser_of_findFirstList db input.listId uid L hfind hown
  have htruthy : strTruthy input.query = true := by
    rw [hq]
    simp [strTruthy, hne]
  simp [listsAppRouter.edit, hguard, listsAppRouter.editHandler, htruthy, huser, htype]

/-- Witness for the amended C2: editing the concrete manual list `l1` with
the query `"is:starred"` fails `BAD_REQUEST` and leaves the database as it
was. -/
theorem edit_manual_nonempty_query_rejected_witness :
    listsAppRouter.edit dbW (some "u1") inpQuery =
      (.error (.trpc .BAD_REQUEST (some "Manual lists cannot have a query")), dbW) :=
  edit_manual_nonempty_query_rejected dbW "u1" inpQuery listW "is:starred"
    (by decide) (by decide) (by decide) (by decide) (by decide)

/-- A successful `editUpdate` updates exactly the rows matching id+owner with
the `.set` clause and touches nothing else. -/
theorem editUpdate_ok (db : Db) (uid : String) (input : EditListInput)
    (r : BookmarkList) (db' : Db)
    (h : listsAppRouter.editUpdate db uid input = (.ok r, db')) :
    db'.bookmarkLists =
      db.bookmarkLists.map
        (fun l => if l.id = input.listId ∧ l.userId = uid then applySet input l else l) ∧
    db'.bookmarksInLists = db.bookmarksInLists ∧
    db'.bookmarks = db.bookmarks := by
  unfold listsAppRouter.editUpdate at h
  simp only [] at h
  split at h
  · simp at h
  · rw [Prod.mk.injEq] at h
    rw [← h.2]
    exact ⟨rfl, rfl, rfl⟩

/-- A successful `editHandler` run is a successful `editUpdate` run (the
query-type check can only fail or fall through to the update). -/
theorem editHandler_ok (db : Db) (uid : String) (input : EditListInput)
    (r : BookmarkList) (db' : Db)
    (h : listsAppRouter.editHandler db uid input = (.ok r, db')) :
    listsAppRouter.editUpdate db uid input = (.ok r, db') := by
  unfold listsAppRouter.editHandler at h
  split at h
  · split at h
    · simp at h
    · split at h
      · simp at h
      · exact h
  · exact h

/-- C9: a successful `edit` never changes the `id`, `userId` or `type` of any row:
the stored lists are rewritten only through the `.set` clause on rows
matching id+owner, the `.set` clause preserves id, owner and type, any field
not provided in the input keeps its prior value, and the membership and
bookmark relations are untouched. -/
theorem edit_success_frame (db : Db) (uid : String) (input : EditListInput)
    (r : BookmarkList) (db' : Db)
    (h : listsAppRouter.edit db (some uid) input = (.ok r, db')) :
    db'.bookmarksInLists = db.bookmarksInLists ∧
    db'.bookmarks = db.bookmarks ∧
    db'.bookmarkLists =
      db.bookmarkLists.map
        (fun l => if l.id = input.listId ∧ l.userId = uid then applySet input l else l) ∧
    (∀ l, (applySet input l).id = l.id ∧ (applySet input l).userId = l.userId ∧
          (applySet input l).type = l.type) ∧
    (input.name = none → ∀ l, (applySet input l).name = l.name) ∧
    (input.icon = none → ∀ l, (applySet input l).icon = l.icon) ∧
    (input.parentId = none → ∀ l, (applySet input l).parentId = l.parentId) ∧
    (input.query = none → ∀ l, (applySet input l).query = l.query) := by
  have hupd : listsAppRouter.editUpdate db uid input = (.ok r, db') := by
    unfold listsAppRouter.edit at h
    split at h
    · simp at h
    · exact editHandler_ok db uid input r db' h
  have hfr := editUpdate_ok db uid input r db' hupd
  refine ⟨hfr.2.1, hfr.2.2, hfr.1, ?_, ?_, ?_, ?_, ?_⟩
  · intro l
    exact ⟨rfl, rfl, rfl⟩
  · intro hn l
    simp [applySet, hn]
  · intro hn l
    simp [applySet, hn]
  · intro hn l
    simp [applySet, hn]
  · intro hn l
    simp [applySet, hn]

/-- Witness for C9: renaming the concrete list `l1` succeeds, rewrites the
list relation only through the `.set` clause, and leaves memberships,
bookmarks, and the unprovided icon/parentId/query fields unchanged. -/
theorem edit_success_frame_witness :
    (listsAppRouter.edit dbW (some "u1") inpRename).2.bookmarkLists =
      dbW.bookmarkLists.map
        (fun l => if l.id = inpRename.listId ∧ l.userId = "u1" then applySet inpRename l
                  else l) ∧
    (listsAppRouter.edit dbW (some "u1") inpRename).2.bookmarksInLists =
      dbW.bookmarksInLists ∧
    (applySet inpRename listW).type = listW.type ∧
    (applySet inpRename listW).userId = listW.userId ∧
    (applySet inpRename listW).query = listW.query := by
  have h := edit_success_frame dbW "u1" inpRename (applySet inpRename listW)
    (listsAppRouter.edit dbW (some "u1") inpRename).2 (by decide)
  exact ⟨h.2.2.1, h.1, (h.2.2.2.1 listW).2.2, (h.2.2.2.1 listW).2.1,
    h.2.2.2.2.2.2.2 rfl listW⟩

/-- The length of a list splits into the rows a filter keeps and the rows its
negation keeps. -/
theorem length_filter_partition {α : Type} (l : List α) (p : α → Bool) :
    l.length = (l.filter p).length + (l.filter (fun a => !(p a))).length := by
  rw [← List.countP_eq_length_filter, ← List.countP_eq_length_filter,
    l.length_eq_countP_add_countP p]
  simp

/-- C3: for a list whose stored type is `smart`, with the caller passing both
ownership guards, `addToList` fails `BAD_REQUEST` ("Smart lists cannot be
added to"); `removeFromList` fails `BAD_REQUEST` ("already not in list") via
its zero-affected-rows path, given invariant I4 that no membership row
references the smart list; and both calls return the database — in
particular the Membership relation — unchanged. -/
theorem smart_list_membership_mutations_rejected (db : Db)
    (uid listId bookmarkId : String) (L : BookmarkList) (B : Bookmark)
    (hfind : findFirstList db listId = some L) (hown : L.userId = uid)
    (hbm : findFirstBookmark db bookmarkId = some B) (hbmOwn : B.userId = uid)
    (htype : L.type = .smart)
    (hI4 : ∀ m ∈ db.bookmarksInLists, m.listId ≠ listId) :
    listsAppRouter.addToList db (some uid) listId bookmarkId =
      (.error (.trpc .BAD_REQUEST (some "Smart lists cannot be added to")), db) ∧
    listsAppRouter.removeFromList db (some uid) listId bookmarkId =
      (.error (.trpc .BAD_REQUEST
        (some s!"Bookmark {bookmarkId} is already not in list {listId}")), db) := by
  have hguardL : ensureListOwnership db (some uid) listId = .ok () := by
    simp [ensureListOwnership, hfind, hown]
  have hguardB : ensureBookmarkOwnership db (some uid) bookmarkId = .ok () := by
    simp [ensureBookmarkOwnership, hbm, hbmOwn]
  have huser := findFirstListOfUser_of_findFirstList db listId uid L hfind hown
  constructor
  · simp [listsAppRouter.addToList, hguardL, hguardB, listsAppRouter.addToListHandler,
      huser, htype]
  · have hfil : db.bookmarksInLists.filter
        (fun m => m.listId = listId ∧ m.bookmarkId = bookmarkId) = [] := by
      rw [List.filter_eq_nil_iff]
      intro m hm
      simp [hI4 m hm]
    simp [listsAppRouter.removeFromList, hguardL, hguardB,
      listsAppRouter.removeFromListHandler, hfil]
    intro x hx hxl
    exact absurd hxl (hI4 x hx)

/-- Witness for C3: on the concrete smart list `s1`, both membership
mutations fail `BAD_REQUEST` and return the database unchanged. -/
theorem smart_list_membership_mutations_rejected_witness :
    listsAppRouter.addToList dbSmart (some "u1") "s1" "b1" =
      (.error (.trpc .BAD_REQUEST (some "Smart lists cannot be added to")), dbSmart) ∧
    listsAppRouter.removeFromList dbSmart (some "u1") "s1" "b1" =
      (.error (.trpc .BAD_REQUEST
        (some "Bookmark b1 is already not in list s1")), dbSmart) :=
  smart_list_membership_mutations_rejected dbSmart "u1" "s1" "b1" listSmart bmW
    (by decide) (by decide) (by decide) (by decide) (by decide) (by decide)

/-- C4: for an `addToList` call that passes both guards on a manual list: a
pre-existing pair makes the store insert fail its primary-key constraint and
the call fails `BAD_REQUEST` ("already in the list") with the database — and
hence the membership count of the pair — unchanged; any other store error is
translated to `INTERNAL_SERVER_ERROR` by the catch block; and a fresh pair
is inserted as exactly one new membership row. -/
theorem addToList_conflict_internal_success (db : Db)
    (uid listId bookmarkId : String) (L : BookmarkList) (B : Bookmark)
    (hfind : findFirstList db listId = some L) (hown : L.userId = uid)
    (hbm : findFirstBookmark db bookmarkId = some B) (hbmOwn : B.userId = uid)
    (htype : L.type = .manual) :
    ((∃ m ∈ db.bookmarksInLists, m.listId = listId ∧ m.bookmarkId = bookmarkId) →
      listsAppRouter.addToList db (some uid) listId bookmarkId =
        (.error (.trpc .BAD_REQUEST
          (some s!"Bookmark {bookmarkId} is already in the list {listId}")), db)) ∧
    (∀ e : StoreError, e ≠ .sqlite "SQLITE_CONSTRAINT_PRIMARYKEY" →
      catchAddToListError listId bookmarkId e =
        .trpc .INTERNAL_SERVER_ERROR (some "Something went wrong")) ∧
    ((∀ m ∈ db.bookmarksInLists, ¬(m.listId = listId ∧ m.bookmarkId = bookmarkId)) →
      listsAppRouter.addToList db (some uid) listId bookmarkId =
        (.ok (), { db with bookmarksInLists :=
          db.bookmarksInLists ++ [⟨listId, bookmarkId⟩] })) := by
  have hguardL : ensureListOwnership db (some uid) listId = .ok () := by
    simp [ensureListOwnership, hfind, hown]
  have hguardB : ensureBookmarkOwnership db (some uid) bookmarkId = .ok () := by
    simp [ensureBookmarkOwnership, hbm, hbmOwn]
  have huser := findFirstListOfUser_of_findFirstList db listId uid L hfind hown
  refine ⟨?_, ?_, ?_⟩
  · intro hex
    have hany : db.bookmarksInLists.any
        (fun m => m.listId = listId ∧ m.bookmarkId = bookmarkId) = true := by
      rw [List.any_eq_true]
      obtain ⟨m, hm, hprop⟩ := hex
      exact ⟨m, hm, by simpa using hprop⟩
    have hins : insertMembership db listId bookmarkId =
        .error (.sqlite "SQLITE_CONSTRAINT_PRIMARYKEY") := by
      unfold insertMembership
      rw [if_pos hany]
    simp [listsAppRouter.addToList, hguardL, hguardB, listsAppRouter.addToListHandler,
      huser, htype, hins, catchAddToListError]
  · intro e hne
    cases e with
    | sqlite code =>
      have hcode : code ≠ "SQLITE_CONSTRAINT_PRIMARYKEY" := by
        intro hc
        exact hne (by rw [hc])
      simp [catchAddToListError, hcode]
    | other => rfl
  · intro hnone
    have hany : db.bookmarksInLists.any
        (fun m => m.listId = listId ∧ m.bookmarkId = bookmarkId) = false := by
      rw [List.any_eq_false]
      intro m hm
      simpa using hnone m hm
    have hins : insertMembership db listId bookmarkId =
        .ok { db with bookmarksInLists := db.bookmarksInLists ++ [⟨listId, bookmarkId⟩] } := by
      unfold insertMembership
      rw [if_neg (by rw [hany]; exact Bool.false_ne_true)]
    simp [listsAppRouter.addToList, hguardL, hguardB, listsAppRouter.addToListHandler,
      huser, htype, hins]

/-- Witness for C4: on concrete databases, re-adding the existing pair
`(l1, b1)` fails `BAD_REQUEST` and leaves the single membership row in
place, a non-primary-key store error maps to `INTERNAL_SERVER_ERROR`, and
adding a fresh pair appends exactly that row. -/
theorem addToList_conflict_internal_success_witness :
    listsAppRouter.addToList dbPair (some "u1") "l1" "b1" =
      (.error (.trpc .BAD_REQUEST
        (some "Bookmark b1 is already in the list l1")), dbPair) ∧
    catchAddToListError "l1" "b1" .other =
      .trpc .INTERNAL_SERVER_ERROR (some "Something went wrong") ∧
    listsAppRouter.addToList dbW (some "u1") "l1" "b1" =
      (.ok (), { dbW with bookmarksInLists :=
        dbW.bookmarksInLists ++ [⟨"l1", "b1"⟩] }) := by
  refine ⟨?_, ?_, ?_⟩
  · exact (addToList_conflict_internal_success dbPair "u1" "l1" "b1" listW bmW
      (by decide) (by decide) (by decide) (by decide) (by decide)).1 (by decide)
  · exact (addToList_conflict_internal_success dbPair "u1" "l1" "b1" listW bmW
      (by decide) (by decide) (by decide) (by decide) (by decide)).2.1 .other (by decide)
  · exact (addToList_conflict_internal_success dbW "u1" "l1" "b1" listW bmW
      (by decide) (by decide) (by decide) (by decide) (by decide)).2.2 (by decide)

/-- C5: for a `removeFromList` call passing both guards: a non-existent pair
fails `BAD_REQUEST` ("already not in list") — a client error, not
`NOT_FOUND` — with the database unchanged; an existing pair makes the call
succeed deleting exactly the rows matching the pair (one row, the pair
being the composite primary key), as the length accounting shows. -/
theorem removeFromList_redundant_and_success (db : Db)
    (uid listId bookmarkId : String) (L : BookmarkList) (B : Bookmark)
    (hfind : findFirstList db listId = some L) (hown : L.userId = uid)
    (hbm : findFirstBookmark db bookmarkId = some B) (hbmOwn : B.userId = uid) :
    ((∀ m ∈ db.bookmarksInLists, ¬(m.listId = listId ∧ m.bookmarkId = bookmarkId)) →
      listsAppRouter.removeFromList db (some uid) listId bookmarkId =
        (.error (.trpc .BAD_REQUEST
          (some s!"Bookmark {bookmarkId} is already not in list {listId}")), db)) ∧
    ((∃ m ∈ db.bookmarksInLists, m.listId = listId ∧ m.bookmarkId = bookmarkId) →
      listsAppRouter.removeFromList db (some uid) listId bookmarkId =
        (.ok (), { db with bookmarksInLists :=
          (db.bookmarksInLists.filter
            (fun m => ¬(m.listId = listId ∧ m.bookmarkId = bookmarkId))) }) ∧
      db.bookmarksInLists.length =
        (db.bookmarksInLists.filter
          (fun m => ¬(m.listId = listId ∧ m.bookmarkId = bookmarkId))).length +
        pairCount db listId bookmarkId) := by
  have hguardL : ensureListOwnership db (some uid) listId = .ok () := by
    simp [ensureListOwnership, hfind, hown]
  have hguardB : ensureBookmarkOwnership db (some uid) bookmarkId = .ok () := by
    simp [ensureBookmarkOwnership, hbm, hbmOwn]
  constructor
  · intro hnone
    have hfil : db.bookmarksInLists.filter
        (fun m => m.listId = listId ∧ m.bookmarkId = bookmarkId) = [] := by
      rw [List.filter_eq_nil_iff]
      intro m hm
      simpa using hnone m hm
    simp [listsAppRouter.removeFromList, hguardL, hguardB,
      listsAppRouter.removeFromListHandler, hfil]
    intro x hx hxl hbk
    exact hnone x hx ⟨hxl, hbk⟩
  · intro hex
    have hne : db.bookmarksInLists.filter
        (fun m => m.listId = listId ∧ m.bookmarkId = bookmarkId) ≠ [] := by
      obtain ⟨m, hm, hprop⟩ := hex
      intro hfl
      have := List.filter_eq_nil_iff.mp hfl m hm
      simp [hprop] at this
    have hlen : ¬ (db.bookmarksInLists.filter
        (fun m => m.listId = listId ∧ m.bookmarkId = bookmarkId)).length = 0 := by
      intro h0
      exact hne (List.length_eq_zero.mp h0)
    constructor
    · simp [listsAppRouter.removeFromList, hguardL, hguardB,
        listsAppRouter.removeFromListHandler, hlen]
      exact hex
    · have hpart := length_filter_partition db.bookmarksInLists
        (fun m => decide (m.listId = listId ∧ m.bookmarkId = bookmarkId))
      rw [pairCount]
      simp only [decide_not]
      omega

/-- Witness for C5: removing the absent pair `(l1, b1)` from `dbW` fails
`BAD_REQUEST` as a no-op, and removing the present pair from `dbPair`
succeeds deleting exactly that row. -/
theorem removeFromList_redundant_and_success_witness :
    listsAppRouter.removeFromList dbW (some "u1") "l1" "b1" =
      (.error (.trpc .BAD_REQUEST
        (some "Bookmark b1 is already not in list l1")), dbW) ∧
    listsAppRouter.removeFromList dbPair (some "u1") "l1" "b1" =
      (.ok (), { dbPair with bookmarksInLists :=
        (dbPair.bookmarksInLists.filter
          (fun m => ¬(m.listId = "l1" ∧ m.bookmarkId = "b1"))) }) := by
  constructor
  · exact (removeFromList_redundant_and_success dbW "u1" "l1" "b1" listW bmW
      (by decide) (by decide) (by decide) (by decide)).1 (by decide)
  · exact ((removeFromList_redundant_and_success dbPair "u1" "l1" "b1" listW bmW
      (by decide) (by decide) (by decide) (by decide)).2 (by decide)).1

/-- C6: a successful `delete` of list `listId` leaves no membership row
referencing that id queryable: the cascade removed every membership row of
the deleted list. -/
theorem delete_cascades_memberships (db : Db) (user : Option String) (listId : String)
    (db' : Db) (h : listsAppRouter.delete db user listId = (.ok (), db')) :
    ∀ m ∈ db'.bookmarksInLists, m.listId ≠ listId := by
  unfold listsAppRouter.delete at h
  cases user with
  | none => simp [ensureListOwnership] at h
  | some uid =>
    cases hg : ensureListOwnership db (some uid) listId with
    | error e =>
      rw [hg] at h
      simp at h
    | ok u =>
      rw [hg] at h
      simp only [] at h
      unfold listsAppRouter.deleteHandler at h
      simp only [] at h
      split at h
      · simp at h
      · rename_i hlen
        rw [Prod.mk.injEq] at h
        obtain ⟨-, h2⟩ := h
        subst h2
        intro m hm hmeq
        obtain ⟨hmem, hcond⟩ := List.mem_filter.mp hm
        have hnotany := of_decide_eq_true hcond
        have hne : db.bookmarkLists.filter
            (fun l => l.id = listId ∧ l.userId = uid) ≠ [] := by
          intro hfl
          rw [hfl] at hlen
          exact hlen rfl
        obtain ⟨l, hl⟩ := List.exists_mem_of_ne_nil _ hne
        have hlp := of_decide_eq_true (List.mem_filter.mp hl).2
        apply hnotany
        rw [List.any_eq_true]
        exact ⟨l, hl, by simp [hlp.1, hmeq]⟩

/-- Witness for C6: after successfully deleting list `l1` from the concrete
database where bookmark `b1` is a member of `l1`, no remaining membership row
references `l1`. -/
theorem delete_cascades_memberships_witness :
    ((listsAppRouter.delete dbPair (some "u1") "l1").2.bookmarksInLists.all
      (fun m => m.listId ≠ "l1")) = true := by
  have h := delete_cascades_memberships dbPair (some "u1") "l1"
    (listsAppRouter.delete dbPair (some "u1") "l1").2 (by decide)
  rw [List.all_eq_true]
  intro m hm
  exact decide_eq_true (h m hm)

/-- C7: given that the ownership guard passed on the guard-time state, the
write of the `delete` mutation is predicated on id AND owner: when at mutation
time no row matches both, zero rows are affected and the call fails
`NOT_FOUND` (not silent success); when it succeeds, the surviving rows are
exactly those not matching the id+owner predicate. -/
theorem delete_zero_rows_notfound (db0 db : Db) (uid listId : String)
    (_hguard : ensureListOwnership db0 (some uid) listId = .ok ()) :
    ((∀ l ∈ db.bookmarkLists, ¬(l.id = listId ∧ l.userId = uid)) →
      listsAppRouter.deleteHandler db uid listId =
        (.error (.trpc .NOT_FOUND none), db)) ∧
    (∀ db', listsAppRouter.deleteHandler db uid listId = (.ok (), db') →
      db'.bookmarkLists =
        db.bookmarkLists.filter (fun l => ¬(l.id = listId ∧ l.userId = uid))) := by
  constructor
  · intro hnone
    have hfil : db.bookmarkLists.filter
        (fun l => l.id = listId ∧ l.userId = uid) = [] := by
      rw [List.filter_eq_nil_iff]
      intro a ha
      simpa using hnone a ha
    simp [listsAppRouter.deleteHandler, hfil]
    intro x hx hid huid
    exact hnone x hx ⟨hid, huid⟩
  · intro db' h
    unfold listsAppRouter.deleteHandler at h
    simp only [] at h
    split at h
    · simp at h
    · rw [Prod.mk.injEq] at h
      obtain ⟨-, h2⟩ := h
      rw [← h2]

/-- Witness for C7: deleting `l1` as `u1` on an empty mutation-time state
(the guard-then-delete race) fails `NOT_FOUND`, and a successful delete on
the unchanged state keeps exactly the rows not matching id+owner. -/
theorem delete_zero_rows_notfound_witness :
    listsAppRouter.deleteHandler dbEmpty "u1" "l1" =
      (.error (.trpc .NOT_FOUND none), dbEmpty) ∧
    (listsAppRouter.deleteHandler dbW "u1" "l1").2.bookmarkLists =
      dbW.bookmarkLists.filter (fun l => ¬(l.id = "l1" ∧ l.userId = "u1")) := by
  constructor
  · exact (delete_zero_rows_notfound dbW dbEmpty "u1" "l1" (by decide)).1 (by decide)
  · exact (delete_zero_rows_notfound dbW dbW "u1" "l1" (by decide)).2
      (listsAppRouter.deleteHandler dbW "u1" "l1").2 (by decide)

/-- C10: with the bookmark ownership guard passing, every list returned by a
successful `getListsOfBookmark` belongs to the caller; and if the join
surfaces any list of another owner, the call aborts with the assertion
failure instead of silently filtering it out. -/
theorem getListsOfBookmark_owner_invariant (db : Db) (uid bookmarkId : String)
    (B : Bookmark) (hbm : findFirstBookmark db bookmarkId = some B)
    (hbmOwn : B.userId = uid) :
    (∀ lists, listsAppRouter.getListsOfBookmark db (some uid) bookmarkId = .ok lists →
      ∀ l ∈ lists, l.userId = uid) ∧
    ((∃ l ∈ listsAppRouter.joinedListsOfBookmark db bookmarkId, l.userId ≠ uid) →
      listsAppRouter.getListsOfBookmark db (some uid) bookmarkId =
        .error .assertionFailure) := by
  have hguardB : ensureBookmarkOwnership db (some uid) bookmarkId = .ok () := by
    simp [ensureBookmarkOwnership, hbm, hbmOwn]
  have hred : listsAppRouter.getListsOfBookmark db (some uid) bookmarkId =
      listsAppRouter.getListsOfBookmarkHandler db uid bookmarkId := by
    simp [listsAppRouter.getListsOfBookmark, hguardB]
  constructor
  · intro lists h l hl
    rw [hred] at h
    unfold listsAppRouter.getListsOfBookmarkHandler at h
    simp only [] at h
    split at h
    · rename_i hall
      rw [Except.ok.injEq] at h
      subst h
      rw [List.all_eq_true] at hall
      exact of_decide_eq_true (hall l hl)
    · exact absurd h (by simp)
  · intro hex
    rw [hred]
    unfold listsAppRouter.getListsOfBookmarkHandler
    simp only []
    rw [if_neg ?hnall]
    case hnall =>
      rw [List.all_eq_true]
      intro hall
      obtain ⟨l, hl, hne⟩ := hex
      exact hne (of_decide_eq_true (hall l hl))

/-- Witness for C10: on the healthy concrete database the only returned list
belongs to the caller, and on the corrupted database (membership crossing
into a list of another owner) the call aborts with the assertion failure. -/
theorem getListsOfBookmark_owner_invariant_witness :
    listW.userId = "u1" ∧
    listsAppRouter.getListsOfBookmark dbCross (some "u1") "b1" =
      .error .assertionFailure := by
  constructor
  · exact (getListsOfBookmark_owner_invariant dbPair "u1" "b1" bmW (by decide)
      (by decide)).1 [listW] (by decide) listW (by simp)
  · exact (getListsOfBookmark_owner_invariant dbCross "u1" "b1" bmW (by decide)
      (by decide)).2 (by decide)
